import Mathlib

/-!
Verification development for the targeted token-probability query pipeline
(`examples/simple/simple.cpp`): the target-set resolver `parse_target_tokens`,
the probability normalizer `compute_softmax`, and the HTTP query handler
`handle_props`.

Embedding conventions:
* A C `float`/`double` value is embedded as a rational number (`ℚ`); the
  rounding of IEEE arithmetic is abstracted away, but its non-ideal behaviours
  that the claims depend on (e.g. `exp` underflowing to `0`) are covered by
  keeping the exponential function an explicit parameter `e : ℚ → ℚ` of the
  softmax instead of baking in an idealized exponential.
* A `(const float*, int n)` pair is embedded as the length-`n` list it points to.
* Token ids (`llama_token`) are embedded as `Nat`.
* The external llama collaborator (`llama_tokenize`, `llama_decode`,
  `llama_get_logits_ith`, `llama_n_ctx`, `llama_n_vocab`,
  `llama_token_to_piece`) is embedded as a record of abstract functions,
  the `LlamaCtx` below.
-/

/-- Char-list worker for `getlineSplit`.  The second argument is `none` when
the next `std::getline` call has not started yet, and `some acc` when a call
is in progress having accumulated `acc` (reversed).  `std::getline(ss, tok, ',')`
succeeds iff it starts before EOF, reading up to and consuming the next `','`;
a call that begins exactly at EOF fails and terminates the `while` loop. -/
def goSplit : List Char → Option (List Char) → List String
  | [], none => []
  | [], some acc => [String.mk acc.reverse]
  | c :: rest, none =>
      if c = ',' then "" :: goSplit rest none
      else goSplit rest (some [c])
  | c :: rest, some acc =>
      if c = ',' then String.mk acc.reverse :: goSplit rest none
      else goSplit rest (some (c :: acc))

/-- The fragment list produced by the source's
`while (std::getline(ss, token, ','))` loop over `target_chars`. -/
def getlineSplit (s : String) : List String :=
  goSplit s.data none

/-- Embedding of `parse_target_tokens(ctx, target_chars)` (simple.cpp:26).
The external tokenizer `llama_tokenize(ctx, text, add_special)` is the
abstract parameter `tok : String → Bool → List Nat`; the source calls it with
`add_special = false` on each comma-separated fragment and appends the
resulting ids to `target_tokens` (`insert` at `end`). -/
def parse_target_tokens (tok : String → Bool → List Nat) (target_chars : String) :
    List Nat :=
  (getlineSplit target_chars).foldl (fun acc frag => acc ++ tok frag false) []

/-- Embedding of `compute_softmax(logits, n_vocab)` (simple.cpp:38).
The first loop fills `probs[i] = exp(logits[i])` and accumulates `sum_exp`;
the second divides every entry by `sum_exp`.  The C library `exp` is the
abstract parameter `e`; in `ℚ`, division by a zero `sum_exp` yields `0`
(the C code would produce NaNs there — no check is performed either way). -/
def compute_softmax (e : ℚ → ℚ) (logits : List ℚ) : List ℚ :=
  let probs := logits.map e
  let sum_exp := probs.sum
  probs.map (fun p => p / sum_exp)

/-- Modelled from the spec: a probability-normalizer that obeys §4.3's error
contract, for comparison with the source's `compute_softmax`.  The spec says
the normalizer "Fails with `NumericError` if the sum of exponentials is zero
or non-finite" instead of returning a value. -/
def compute_softmax_spec (e : ℚ → ℚ) (logits : List ℚ) : Except String (List ℚ) :=
  let probs := logits.map e
  let sum_exp := probs.sum
  if sum_exp = 0 then Except.error "NumericError"
  else Except.ok (probs.map (fun p => p / sum_exp))

/-- One row of a `llama_batch`: the `(token, position, sequence-ids,
emit-logits-flag)` tuple described by the spec's Batch data model. -/
structure BatchEntry where
  token : Nat
  pos : Nat
  seq_id : List Nat
  logits : Bool
  deriving DecidableEq, Repr

/-- Modelled from the spec: `llama_batch_add(batch, token, pos, seq_ids, logits)`
(declared in `common.h`, body not under `src/`).  Per the spec's Batch data
model it appends one `(token, position, sequence-id, emit-logits-flag)` tuple;
no capacity check is performed against the buffer allocated by
`llama_batch_init`. -/
def llama_batch_add (batch : List BatchEntry) (token pos : Nat)
    (seq_id : List Nat) (logits : Bool) : List BatchEntry :=
  batch ++ [⟨token, pos, seq_id, logits⟩]

/-- The capacity argument of the source's `llama_batch_init(512, 0, 1)` call
(simple.cpp:82): room for 512 batch entries, regardless of prompt length. -/
def batchCapacity : Nat := 512

/-- The batch-filling loop of `handle_props` (simple.cpp:83-85):
`llama_batch_add(batch, tokens_list[i], i, { 0 }, false)` for each prompt
index `i`, starting from the empty batch produced by `llama_batch_init`. -/
def buildBatch (tokens : List Nat) : List BatchEntry :=
  tokens.enum.foldl (fun b it => llama_batch_add b it.2 it.1 [0] false) []

/-- `batch.logits[batch.n_tokens - 1] = true` (simple.cpp:86): request logit
emission for the final entry.  (On an empty batch the C code would write out
of bounds; the prompt token list is non-empty on every path reaching here.) -/
def setLastLogitTrue (b : List BatchEntry) : List BatchEntry :=
  match b.getLast? with
  | none => b
  | some last => b.dropLast ++ [{ last with logits := true }]

/-- The report-building loop of `handle_props` (simple.cpp:103-108): for each
resolved target token, in order, emit the pair
`(llama_token_to_piece(ctx, token), probs[token])`.  The C indexing
`probs[token]` is embedded with a total `getD` (out-of-bounds access is
undefined behaviour in C; the claims only use it under `token < probs.length`). -/
def reportTokens (piece : Nat → String) (probs : List ℚ) (targets : List Nat) :
    List (String × ℚ) :=
  targets.map (fun t => (piece t, probs.getD t 0))

/-- The abstract llama collaborator visible to `handle_props`. -/
structure LlamaCtx where
  /-- `llama_tokenize(ctx, text, add_special)` -/
  tokenize : String → Bool → List Nat
  /-- `llama_n_ctx(ctx)` -/
  n_ctx : Nat
  /-- `llama_n_vocab(model)` -/
  n_vocab : Nat
  /-- the return value of `llama_decode(ctx, batch)`; `0` means success -/
  decode_ret : Int
  /-- `llama_get_logits_ith(ctx, i)`: the logit vector at batch position `i` -/
  logits_ith : Nat → List ℚ
  /-- `llama_token_to_piece(ctx, token)` -/
  token_to_piece : Nat → String
  /-- the C library exponential used by `compute_softmax` -/
  e : ℚ → ℚ

/-- A parsed request body.  A field is `some s` when the JSON object carries a
string `s` under that key and `none` when the key is absent (in which case
nlohmann json's `operator[]` yields `null` and `.get<std::string>()` throws a
`type_error`, which `handle_props` does not catch). -/
structure Req where
  prompt : Option String
  target_chars : Option String

/-- The exit taken by `handle_props`. -/
inductive HStatus where
  /-- an uncaught nlohmann `type_error` escaping the handler (missing field) -/
  | typeException
  /-- `400 {"error": "Missing prompt or target_chars parameter"}` -/
  | invalidInput
  /-- `400 {"error": "Prompt is too long"}` -/
  | promptTooLong
  /-- `500 {"error": "Failed to decode"}` -/
  | decodeFailed
  /-- `200` with the token/probability report -/
  | ok
  deriving DecidableEq, Repr

/-- The HTTP status code `handle_props` stores in `res.status` on each exit
(`none` for the uncaught exception, which never reaches `res.status`). -/
def statusCode : HStatus → Option Nat
  | HStatus.typeException => none
  | HStatus.invalidInput => some 400
  | HStatus.promptTooLong => some 400
  | HStatus.decodeFailed => some 500
  | HStatus.ok => some 200

/-- Everything observable about one `handle_props` run: the exit taken, the
response body on success, and the calls made to the collaborator and to the
batch allocator. -/
structure HandlerTrace where
  status : HStatus
  body : List (String × ℚ)
  /-- number of `llama_tokenize` calls issued -/
  tokenize_calls : Nat
  /-- number of `llama_decode` calls issued -/
  decode_calls : Nat
  /-- number of `llama_batch_add` calls issued -/
  batch_adds : Nat
  /-- whether `llama_batch_init` ran -/
  batch_inited : Bool
  /-- whether `llama_batch_free` ran before returning -/
  batch_freed : Bool
  deriving DecidableEq, Repr

/-- Embedding of `handle_props(req, res, model, ctx)` (simple.cpp:51-115),
starting after the JSON body has parsed (a parse failure exits with 400
before any field access and is outside every claim).  Control flow mirrors
the source line by line:
field access (63-64), empty check (66-70), prompt tokenization (73),
context-length guard (74-79), batch construction (82-86), decode (87-91),
logits/softmax (94-96), target resolution (99), report loop (103-108),
and `llama_batch_free` only on the success path (114). -/
def handle_props (mc : LlamaCtx) (req : Req) : HandlerTrace :=
  match req.prompt with
  | none => ⟨HStatus.typeException, [], 0, 0, 0, false, false⟩
  | some prompt =>
    match req.target_chars with
    | none => ⟨HStatus.typeException, [], 0, 0, 0, false, false⟩
    | some target_chars =>
      if prompt.isEmpty || target_chars.isEmpty then
        ⟨HStatus.invalidInput, [], 0, 0, 0, false, false⟩
      else
        let tokens_list := mc.tokenize prompt true
        if tokens_list.length > mc.n_ctx then
          ⟨HStatus.promptTooLong, [], 1, 0, 0, false, false⟩
        else
          let batch := setLastLogitTrue (buildBatch tokens_list)
          if mc.decode_ret ≠ 0 then
            ⟨HStatus.decodeFailed, [], 1, 1, tokens_list.length, true, false⟩
          else
            let logits := mc.logits_ith (batch.length - 1)
            let probs := compute_softmax mc.e logits
            let target_tokens := parse_target_tokens mc.tokenize target_chars
            let body := reportTokens mc.token_to_piece probs target_tokens
            ⟨HStatus.ok, body,
              1 + (getlineSplit target_chars).length, 1,
              tokens_list.length, true, true⟩

/-! ## Helper lemmas -/

lemma list_sum_map_div (l : List ℚ) (c : ℚ) :
    (l.map (fun x => x / c)).sum = l.sum / c := by
  induction l with
  | nil => simp
  | cons a t ih => simp [ih, add_div]

lemma list_foldl_append_flatMap {α β : Type} (f : α → List β) (l : List α) :
    ∀ init : List β,
      l.foldl (fun acc x => acc ++ f x) init = init ++ l.flatMap f := by
  induction l with
  | nil => intro init; simp
  | cons a t ih => intro init; simp [List.foldl_cons, ih]

lemma list_foldl_append_map {α β : Type} (g : α → β) (l : List α) :
    ∀ init : List β,
      l.foldl (fun acc x => acc ++ [g x]) init = init ++ l.map g := by
  induction l with
  | nil => intro init; simp
  | cons a t ih => intro init; simp [List.foldl_cons, ih]

/-! ## C1: the normalizer returns a distribution -/

/-- C1: For every logit vector of length `V` (the vocabulary size, hence
non-empty), `compute_softmax` returns a vector of the same length `V` in
which every entry is nonnegative and whose entries sum to exactly `1` in the
idealized (rational) arithmetic — in particular within the `1e-5` tolerance.
The library exponential is any function `e` that is everywhere positive, as
the real `exp` is. -/
theorem compute_softmax_distribution (e : ℚ → ℚ) (logits : List ℚ)
    (hpos : ∀ x, 0 < e x) (hne : logits ≠ []) :
    (compute_softmax e logits).length = logits.length ∧
    (∀ p ∈ compute_softmax e logits, 0 ≤ p) ∧
    (compute_softmax e logits).sum = 1 := by
  have hmapne : logits.map e ≠ [] := by
    simpa using hne
  have hS : 0 < (logits.map e).sum := by
    refine List.sum_pos _ ?_ hmapne
    intro x hx
    obtain ⟨y, _, rfl⟩ := List.mem_map.mp hx
    exact hpos y
  refine ⟨by simp [compute_softmax], ?_, ?_⟩
  · intro p hp
    simp only [compute_softmax, List.mem_map] at hp
    obtain ⟨q, hq, rfl⟩ := hp
    obtain ⟨y, _, rfl⟩ := hq
    exact div_nonneg (le_of_lt (hpos y)) (le_of_lt hS)
  · simp only [compute_softmax]
    rw [list_sum_map_div]
    exact div_self (ne_of_gt hS)

/-- Witness for C1 at `e = const 1`, `logits = [0, 1]`. -/
theorem compute_softmax_distribution_witness :
    (∀ x : ℚ, 0 < (fun _ : ℚ => (1 : ℚ)) x) ∧ ([(0 : ℚ), 1] ≠ []) ∧
    ((compute_softmax (fun _ : ℚ => 1) [0, 1]).length = ([(0 : ℚ), 1]).length ∧
     (∀ p ∈ compute_softmax (fun _ : ℚ => 1) [0, 1], 0 ≤ p) ∧
     (compute_softmax (fun _ : ℚ => 1) [0, 1]).sum = 1) :=
  ⟨fun _ => one_pos, by decide,
    compute_softmax_distribution (fun _ => 1) [0, 1] (fun _ => one_pos) (by decide)⟩

/-! ## C2: no NumericError check exists in the source -/

/-- C2 counterexample: in IEEE arithmetic `exp` underflows to `0.0` for
sufficiently negative arguments (e.g. `exp(-746)` in double precision), so a
finite logit vector such as `[-746]` makes the sum of exponentials `0`.  The
spec-modelled normalizer `compute_softmax_spec` fails with `NumericError`
there, but the source's `compute_softmax` performs no check and returns a
(degenerate) vector — the underflowed exponential is modelled by
`e = fun _ => 0`. -/
theorem compute_softmax_missing_numeric_error :
    (([(-746 : ℚ)]).map (fun _ : ℚ => (0 : ℚ))).sum = 0 ∧
    compute_softmax (fun _ : ℚ => 0) [(-746 : ℚ)] = [0] ∧
    compute_softmax_spec (fun _ : ℚ => 0) [(-746 : ℚ)] =
      Except.error "NumericError" := by
  refine ⟨by simp, by simp [compute_softmax], by simp [compute_softmax_spec]⟩

/-- C2 amended: `compute_softmax` has no error path at all.  Even when the
sum of exponentials is `0` it returns a full-length vector whose entries are
the division-by-zero results (all `0` in `ℚ`; NaNs in the C code) rather than
failing with `NumericError`. -/
theorem compute_softmax_total_despite_zero_sum (e : ℚ → ℚ) (logits : List ℚ)
    (hzero : (logits.map e).sum = 0) :
    (compute_softmax e logits).length = logits.length ∧
    compute_softmax e logits = logits.map (fun _ => 0) := by
  constructor
  · simp [compute_softmax]
  · show (logits.map e).map (fun p => p / (logits.map e).sum) = _
    rw [hzero, List.map_map]
    exact List.map_congr_left (fun a _ => div_zero (e a))

/-- Witness for the amended C2 at `e = const 0`, `logits = [1, 2]`. -/
theorem compute_softmax_total_despite_zero_sum_witness :
    (([(1 : ℚ), 2]).map (fun _ : ℚ => (0 : ℚ))).sum = 0 ∧
    ((compute_softmax (fun _ : ℚ => 0) [1, 2]).length = ([(1 : ℚ), 2]).length ∧
     compute_softmax (fun _ : ℚ => 0) [1, 2] = ([(1 : ℚ), 2]).map (fun _ => 0)) :=
  ⟨by simp, compute_softmax_total_despite_zero_sum (fun _ => 0) [1, 2] (by simp)⟩

/-! ## C8: shift invariance -/

/-- C8: For every logit vector and every constant `c`, normalizing the
shifted vector `L + c` gives exactly the same distribution as normalizing
`L`, provided the library exponential `e` satisfies the two defining
properties of the real `exp`: positivity and `e (x + y) = e x * e y`.  In
the idealized arithmetic the two outputs are equal outright, hence within
any floating tolerance. -/
theorem compute_softmax_shift_invariant (e : ℚ → ℚ) (c : ℚ) (logits : List ℚ)
    (hpos : ∀ x, 0 < e x) (hhom : ∀ x y, e (x + y) = e x * e y) :
    compute_softmax e (logits.map (fun l => l + c)) = compute_softmax e logits := by
  have hec : e c ≠ 0 := ne_of_gt (hpos c)
  have hmap : (logits.map (fun l => l + c)).map e =
      logits.map (fun l => e l * e c) := by
    rw [List.map_map]
    exact List.map_congr_left (fun a _ => hhom a c)
  simp only [compute_softmax]
  rw [hmap, List.sum_map_mul_right logits e (e c), List.map_map, List.map_map]
  exact List.map_congr_left
    (fun a _ => mul_div_mul_right (e a) ((logits.map e).sum) hec)

/-- Witness for C8 at `e = const 1`, `c = 2`, `logits = [3, 4]`. -/
theorem compute_softmax_shift_invariant_witness :
    (∀ x : ℚ, 0 < (fun _ : ℚ => (1 : ℚ)) x) ∧
    (∀ x y : ℚ, (fun _ : ℚ => (1 : ℚ)) (x + y) =
      (fun _ : ℚ => (1 : ℚ)) x * (fun _ : ℚ => (1 : ℚ)) y) ∧
    compute_softmax (fun _ : ℚ => 1) (([(3 : ℚ), 4]).map (fun l => l + 2)) =
      compute_softmax (fun _ : ℚ => 1) [(3 : ℚ), 4] :=
  ⟨fun _ => one_pos, fun _ _ => (one_mul 1).symm,
    compute_softmax_shift_invariant (fun _ => 1) 2 [3, 4]
      (fun _ => one_pos) (fun _ _ => (one_mul 1).symm)⟩

/-! ## C5: the resolver splits on commas and concatenates tokenizations -/

/-- C5: For every target string, `parse_target_tokens` splits on the `','`
delimiter exactly as the source's `std::getline` loop does and concatenates,
in fragment order, the tokenizations obtained with the no-implicit-start-token
mode (`add_special = false`); in particular on `"H,e,l,o"` it returns exactly
the concatenation of the tokenizations of `"H"`, `"e"`, `"l"`, `"o"`, whatever
the external tokenizer `tok` is. -/
theorem parse_target_tokens_concat (tok : String → Bool → List Nat) :
    (∀ s : String,
        parse_target_tokens tok s =
          (getlineSplit s).flatMap (fun frag => tok frag false)) ∧
    parse_target_tokens tok "H,e,l,o" =
      tok "H" false ++ tok "e" false ++ tok "l" false ++ tok "o" false := by
  have hgen : ∀ s : String,
      parse_target_tokens tok s =
        (getlineSplit s).flatMap (fun frag => tok frag false) := by
    intro s
    unfold parse_target_tokens
    rw [list_foldl_append_flatMap]
    simp
  refine ⟨hgen, ?_⟩
  rw [hgen]
  have h4 : getlineSplit "H,e,l,o" = ["H", "e", "l", "o"] := by decide
  rw [h4]
  simp

/-! ## C7: the reporter preserves order and cannot fail -/

/-- C7: For every distribution and every ordered list of resolved target
tokens whose ids are below the distribution's length (valid upstream data),
`reportTokens` emits exactly one `(display-string, distribution[token_id])`
pair per entry, in input order; duplicate token ids occurring at two input
positions receive identical probability values; and every reported
probability is an actual entry of the distribution (the lookup is defined —
the stage has no failure path). -/
theorem reportTokens_ordered (piece : Nat → String) (probs : List ℚ)
    (targets : List Nat) (hb : ∀ t ∈ targets, t < probs.length) :
    (reportTokens piece probs targets).length = targets.length ∧
    (∀ i, i < targets.length →
      (reportTokens piece probs targets).getD i ("", 0) =
        (piece (targets.getD i 0), probs.getD (targets.getD i 0) 0)) ∧
    (∀ i j, i < targets.length → j < targets.length →
      targets.getD i 0 = targets.getD j 0 →
      ((reportTokens piece probs targets).getD i ("", 0)).2 =
        ((reportTokens piece probs targets).getD j ("", 0)).2) ∧
    (∀ pr ∈ reportTokens piece probs targets, pr.2 ∈ probs) := by
  have hlen : (reportTokens piece probs targets).length = targets.length := by
    simp [reportTokens]
  have hget : ∀ i, i < targets.length →
      (reportTokens piece probs targets).getD i ("", 0) =
        (piece (targets.getD i 0), probs.getD (targets.getD i 0) 0) := by
    intro i hi
    have hi' : i < (reportTokens piece probs targets).length := by
      rw [hlen]; exact hi
    rw [List.getD_eq_getElem _ _ hi', List.getD_eq_getElem _ _ hi]
    simp [reportTokens]
  refine ⟨hlen, hget, ?_, ?_⟩
  · intro i j hi hj hdup
    rw [hget i hi, hget j hj, hdup]
  · intro pr hpr
    simp only [reportTokens, List.mem_map] at hpr
    obtain ⟨t, ht, rfl⟩ := hpr
    have htlt : t < probs.length := hb t ht
    show probs.getD t 0 ∈ probs
    rw [List.getD_eq_getElem _ _ htlt]
    exact List.getElem_mem htlt

/-- Witness for C7 at `probs = [3, 4]`, `targets = [1, 0, 1]` (a duplicate). -/
theorem reportTokens_ordered_witness :
    (∀ t ∈ [1, 0, 1], t < ([(3 : ℚ), 4]).length) ∧
    ((reportTokens (fun _ => "x") [(3 : ℚ), 4] [1, 0, 1]).length =
        ([1, 0, 1] : List Nat).length ∧
     (∀ i, i < ([1, 0, 1] : List Nat).length →
       (reportTokens (fun _ => "x") [(3 : ℚ), 4] [1, 0, 1]).getD i ("", 0) =
         ((fun _ => "x") (([1, 0, 1] : List Nat).getD i 0),
           ([(3 : ℚ), 4]).getD (([1, 0, 1] : List Nat).getD i 0) 0)) ∧
     (∀ i j, i < ([1, 0, 1] : List Nat).length →
       j < ([1, 0, 1] : List Nat).length →
       ([1, 0, 1] : List Nat).getD i 0 = ([1, 0, 1] : List Nat).getD j 0 →
       ((reportTokens (fun _ => "x") [(3 : ℚ), 4] [1, 0, 1]).getD i ("", 0)).2 =
         ((reportTokens (fun _ => "x") [(3 : ℚ), 4] [1, 0, 1]).getD j ("", 0)).2) ∧
     (∀ pr ∈ reportTokens (fun _ => "x") [(3 : ℚ), 4] [1, 0, 1], pr.2 ∈ [(3 : ℚ), 4])) :=
  ⟨by decide,
    reportTokens_ordered (fun _ => "x") [3, 4] [1, 0, 1] (by decide)⟩

/-! ## C3: oversized prompts are rejected before any decode -/

/-- C3: For every prompt whose token sequence is longer than the model's
context length `n_ctx`, `handle_props` exits with the prompt-too-long
client-error response (HTTP 400) and issues no decode call; the batch is not
even allocated. -/
theorem handle_props_context_overflow (mc : LlamaCtx) (p tc : String)
    (hpe : p.isEmpty = false) (htce : tc.isEmpty = false)
    (hlen : (mc.tokenize p true).length > mc.n_ctx) :
    (handle_props mc ⟨some p, some tc⟩).status = HStatus.promptTooLong ∧
    statusCode (handle_props mc ⟨some p, some tc⟩).status = some 400 ∧
    (handle_props mc ⟨some p, some tc⟩).decode_calls = 0 ∧
    (handle_props mc ⟨some p, some tc⟩).batch_inited = false := by
  simp [handle_props, hpe, htce, hlen, statusCode]

/-- Witness for C3: a two-token prompt against a context of length 1. -/
theorem handle_props_context_overflow_witness :
    ("a".isEmpty = false) ∧ ("b".isEmpty = false) ∧
    ((LlamaCtx.mk (fun _ _ => [0, 0]) 1 1 0 (fun _ => [0]) (fun _ => "") id).tokenize
        "a" true).length >
      (LlamaCtx.mk (fun _ _ => [0, 0]) 1 1 0 (fun _ => [0]) (fun _ => "") id).n_ctx ∧
    ((handle_props (LlamaCtx.mk (fun _ _ => [0, 0]) 1 1 0 (fun _ => [0]) (fun _ => "") id)
        ⟨some "a", some "b"⟩).status = HStatus.promptTooLong ∧
     statusCode (handle_props
        (LlamaCtx.mk (fun _ _ => [0, 0]) 1 1 0 (fun _ => [0]) (fun _ => "") id)
        ⟨some "a", some "b"⟩).status = some 400 ∧
     (handle_props (LlamaCtx.mk (fun _ _ => [0, 0]) 1 1 0 (fun _ => [0]) (fun _ => "") id)
        ⟨some "a", some "b"⟩).decode_calls = 0 ∧
     (handle_props (LlamaCtx.mk (fun _ _ => [0, 0]) 1 1 0 (fun _ => [0]) (fun _ => "") id)
        ⟨some "a", some "b"⟩).batch_inited = false) :=
  ⟨rfl, rfl, by decide,
    handle_props_context_overflow
      (LlamaCtx.mk (fun _ _ => [0, 0]) 1 1 0 (fun _ => [0]) (fun _ => "") id)
      "a" "b" rfl rfl (by decide)⟩

/-! ## C4: input validation -/

/-- C4 counterexample: a request whose `prompt` key is absent does NOT fail
with the `InvalidInputError` response (`400` "Missing prompt or
target_chars parameter"); instead the uncaught nlohmann `type_error` thrown
by `.get<std::string>()` escapes `handle_props`.  (No model work happens, but
the error kind the claim requires is not produced.) -/
theorem handle_props_absent_field_counterexample :
    (handle_props (LlamaCtx.mk (fun _ _ => [0]) 4 1 0 (fun _ => [0]) (fun _ => "") id)
        ⟨none, some "H"⟩).status = HStatus.typeException ∧
    ¬ (handle_props (LlamaCtx.mk (fun _ _ => [0]) 4 1 0 (fun _ => [0]) (fun _ => "") id)
        ⟨none, some "H"⟩).status = HStatus.invalidInput ∧
    (handle_props (LlamaCtx.mk (fun _ _ => [0]) 4 1 0 (fun _ => [0]) (fun _ => "") id)
        ⟨none, some "H"⟩).tokenize_calls = 0 ∧
    (handle_props (LlamaCtx.mk (fun _ _ => [0]) 4 1 0 (fun _ => [0]) (fun _ => "") id)
        ⟨none, some "H"⟩).decode_calls = 0 := by
  refine ⟨rfl, ?_, rfl, rfl⟩
  intro h
  exact HStatus.noConfusion h

/-- C4 amended: a request carrying an empty (but present) `prompt` or
`target_chars` string fails with the `InvalidInputError` response (HTTP 400)
before any model work — no tokenize and no decode call.  A request with an
absent field also performs no model work, but exits by an uncaught json
`type_error` exception instead of the `InvalidInputError` response. -/
theorem handle_props_input_validation (mc : LlamaCtx) (p tc : String)
    (he : (p.isEmpty || tc.isEmpty) = true) :
    ((handle_props mc ⟨some p, some tc⟩).status = HStatus.invalidInput ∧
     statusCode (handle_props mc ⟨some p, some tc⟩).status = some 400 ∧
     (handle_props mc ⟨some p, some tc⟩).tokenize_calls = 0 ∧
     (handle_props mc ⟨some p, some tc⟩).decode_calls = 0) ∧
    (∀ otc : Option String,
      (handle_props mc ⟨none, otc⟩).status = HStatus.typeException ∧
      (handle_props mc ⟨none, otc⟩).tokenize_calls = 0 ∧
      (handle_props mc ⟨none, otc⟩).decode_calls = 0) ∧
    (∀ op : Option String,
      (handle_props mc ⟨op, none⟩).status = HStatus.typeException ∧
      (handle_props mc ⟨op, none⟩).tokenize_calls = 0 ∧
      (handle_props mc ⟨op, none⟩).decode_calls = 0) := by
  refine ⟨by simp [handle_props, he, statusCode], ?_, ?_⟩
  · intro otc
    exact ⟨rfl, rfl, rfl⟩
  · intro op
    cases op with
    | none => exact ⟨rfl, rfl, rfl⟩
    | some q => exact ⟨rfl, rfl, rfl⟩

/-- Witness for the amended C4 at `p = ""`, `tc = "x"`. -/
theorem handle_props_input_validation_witness :
    (("".isEmpty || "x".isEmpty) = true) ∧
    ((handle_props (LlamaCtx.mk (fun _ _ => [0]) 4 1 0 (fun _ => [0]) (fun _ => "") id)
        ⟨some "", some "x"⟩).status = HStatus.invalidInput ∧
     statusCode (handle_props
        (LlamaCtx.mk (fun _ _ => [0]) 4 1 0 (fun _ => [0]) (fun _ => "") id)
        ⟨some "", some "x"⟩).status = some 400 ∧
     (handle_props (LlamaCtx.mk (fun _ _ => [0]) 4 1 0 (fun _ => [0]) (fun _ => "") id)
        ⟨some "", some "x"⟩).tokenize_calls = 0 ∧
     (handle_props (LlamaCtx.mk (fun _ _ => [0]) 4 1 0 (fun _ => [0]) (fun _ => "") id)
        ⟨some "", some "x"⟩).decode_calls = 0) :=
  ⟨rfl,
    (handle_props_input_validation
      (LlamaCtx.mk (fun _ _ => [0]) 4 1 0 (fun _ => [0]) (fun _ => "") id)
      "" "x" rfl).1⟩

/-! ## C6: the submitted batch's shape -/

lemma buildBatch_eq (tokens : List Nat) :
    buildBatch tokens =
      tokens.enum.map (fun it => (⟨it.2, it.1, [0], false⟩ : BatchEntry)) := by
  simp only [buildBatch, llama_batch_add]
  rw [list_foldl_append_map
    (fun it : Nat × Nat => (⟨it.2, it.1, [0], false⟩ : BatchEntry))]
  simp

lemma list_getElem_congr {α : Type} {l l2 : List α} (h : l = l2) {i : Nat}
    (hi : i < l.length) (hi2 : i < l2.length) : l[i] = l2[i] := by
  subst h
  rfl

/-- C6: For every non-empty prompt token list, the batch submitted to
`llama_decode` — `setLastLogitTrue (buildBatch tokens)` — has one entry per
prompt token; the `i`-th entry carries the `i`-th prompt token at position
`i` with sequence-id list `[0]`, its emit-logits flag set exactly when `i`
is the last index; and exactly one entry in the whole batch has the
emit-logits flag set. -/
theorem handle_props_batch_invariant (tokens : List Nat) (hne : tokens ≠ []) :
    (setLastLogitTrue (buildBatch tokens)).length = tokens.length ∧
    (∀ i (hi : i < tokens.length),
      (setLastLogitTrue (buildBatch tokens)).getD i ⟨0, 0, [], false⟩ =
        ⟨tokens[i], i, [0], decide (i = tokens.length - 1)⟩) ∧
    (setLastLogitTrue (buildBatch tokens)).countP (fun be => be.logits) = 1 := by
  have hn : 0 < tokens.length := List.length_pos.mpr hne
  have hA := buildBatch_eq tokens
  have hAlen : (buildBatch tokens).length = tokens.length := by
    rw [hA]; simp
  have hAne : buildBatch tokens ≠ [] := by
    intro h
    rw [h] at hAlen
    simp at hAlen
    omega
  have hB : setLastLogitTrue (buildBatch tokens) =
      (buildBatch tokens).dropLast ++
        [{ (buildBatch tokens).getLast hAne with logits := true }] := by
    unfold setLastLogitTrue
    rw [List.getLast?_eq_getLast _ hAne]
  have hglast : (buildBatch tokens).getLast hAne =
      ⟨tokens.get ⟨tokens.length - 1, by omega⟩, tokens.length - 1, [0], false⟩ := by
    rw [List.getLast_eq_getElem,
      list_getElem_congr hA (by omega)
        (by simp only [List.length_map, List.enum_length]; omega)]
    simp [hAlen, List.get_eq_getElem]
  have hdllen : (buildBatch tokens).dropLast.length = tokens.length - 1 := by
    rw [List.length_dropLast, hAlen]
  have hBlen : (setLastLogitTrue (buildBatch tokens)).length = tokens.length := by
    rw [hB, List.length_append, hdllen]
    simp
    omega
  refine ⟨hBlen, ?_, ?_⟩
  · intro i hi
    have hi1 : i < (setLastLogitTrue (buildBatch tokens)).length := by
      rw [hBlen]; exact hi
    have hi2 : i < ((buildBatch tokens).dropLast ++
        [{ (buildBatch tokens).getLast hAne with logits := true }]).length := by
      rw [List.length_append, hdllen]
      simp
      omega
    rw [List.getD_eq_getElem _ _ hi1, list_getElem_congr hB hi1 hi2]
    by_cases hilast : i = tokens.length - 1
    · subst hilast
      rw [List.getElem_append_right (by omega :
        (buildBatch tokens).dropLast.length ≤ tokens.length - 1)]
      have h0 : tokens.length - 1 - (buildBatch tokens).dropLast.length = 0 := by
        omega
      simp [h0, hglast, List.get_eq_getElem]
    · rw [List.getElem_append_left (by omega : i < (buildBatch tokens).dropLast.length),
        List.getElem_dropLast,
        list_getElem_congr hA (by omega)
          (by simp only [List.length_map, List.enum_length]; omega)]
      simp [hilast]
  · rw [hB, List.countP_append]
    have hzero : (buildBatch tokens).dropLast.countP (fun be => be.logits) = 0 := by
      rw [List.countP_eq_zero]
      intro a ha
      have haA : a ∈ buildBatch tokens := List.dropLast_subset _ ha
      rw [hA] at haA
      obtain ⟨it, _, rfl⟩ := List.mem_map.mp haA
      simp
    rw [hzero]
    simp

/-- Witness for C6 at the two-token prompt `[5, 7]`. -/
theorem handle_props_batch_invariant_witness :
    (([5, 7] : List Nat) ≠ []) ∧
    ((setLastLogitTrue (buildBatch [5, 7])).length = ([5, 7] : List Nat).length ∧
     (∀ i (hi : i < ([5, 7] : List Nat).length),
       (setLastLogitTrue (buildBatch [5, 7])).getD i ⟨0, 0, [], false⟩ =
         ⟨([5, 7] : List Nat)[i], i, [0], decide (i = ([5, 7] : List Nat).length - 1)⟩) ∧
     (setLastLogitTrue (buildBatch [5, 7])).countP (fun be => be.logits) = 1) :=
  ⟨by decide, handle_props_batch_invariant [5, 7] (by decide)⟩

/-! ## C9: the batch is leaked on the decode-failure exit -/

/-- C9 evaluation: with a collaborator whose `llama_decode` returns a
nonzero status, `handle_props` takes the 500 decode-failure exit after
allocating the batch, and returns WITHOUT calling `llama_batch_free` — the
batch buffer is leaked on that exit path.  On the success exit
(`decode_ret = 0`, second half) the same request does free the batch, so the
release is not on every exit path as the claim requires. -/
theorem handle_props_decode_failure_leaks_batch :
    ((handle_props (LlamaCtx.mk (fun _ _ => [0]) 4 1 1 (fun _ => [0]) (fun _ => "") id)
        ⟨some "p", some "H"⟩).status = HStatus.decodeFailed ∧
     statusCode (handle_props
        (LlamaCtx.mk (fun _ _ => [0]) 4 1 1 (fun _ => [0]) (fun _ => "") id)
        ⟨some "p", some "H"⟩).status = some 500 ∧
     (handle_props (LlamaCtx.mk (fun _ _ => [0]) 4 1 1 (fun _ => [0]) (fun _ => "") id)
        ⟨some "p", some "H"⟩).batch_inited = true ∧
     (handle_props (LlamaCtx.mk (fun _ _ => [0]) 4 1 1 (fun _ => [0]) (fun _ => "") id)
        ⟨some "p", some "H"⟩).batch_freed = false) ∧
    ((handle_props (LlamaCtx.mk (fun _ _ => [0]) 4 1 0 (fun _ => [0]) (fun _ => "") id)
        ⟨some "p", some "H"⟩).status = HStatus.ok ∧
     (handle_props (LlamaCtx.mk (fun _ _ => [0]) 4 1 0 (fun _ => [0]) (fun _ => "") id)
        ⟨some "p", some "H"⟩).batch_inited = true ∧
     (handle_props (LlamaCtx.mk (fun _ _ => [0]) 4 1 0 (fun _ => [0]) (fun _ => "") id)
        ⟨some "p", some "H"⟩).batch_freed = true) := by
  refine ⟨⟨?_, ?_, ?_, ?_⟩, ?_, ?_, ?_⟩ <;> rfl

/-! ## C10: prompts longer than the batch capacity overflow it -/

/-- C10: The batch is allocated with fixed capacity `batchCapacity = 512`
(from `llama_batch_init(512, 0, 1)`), and the only length guard compares the
prompt's token count against `n_ctx`.  For every prompt tokenizing to more
than 512 tokens but at most `n_ctx` tokens, `handle_props` passes the guard,
allocates the batch, and issues one unchecked `llama_batch_add` per token —
more adds than the allocated capacity, i.e. writes past the batch buffer. -/
theorem handle_props_batch_capacity_overflow (mc : LlamaCtx) (p tc : String)
    (hpe : p.isEmpty = false) (htce : tc.isEmpty = false)
    (hbig : (mc.tokenize p true).length > batchCapacity)
    (hctx : (mc.tokenize p true).length ≤ mc.n_ctx) :
    (handle_props mc ⟨some p, some tc⟩).batch_inited = true ∧
    (handle_props mc ⟨some p, some tc⟩).batch_adds = (mc.tokenize p true).length ∧
    (handle_props mc ⟨some p, some tc⟩).batch_adds > batchCapacity := by
  have hnot : ¬ ((mc.tokenize p true).length > mc.n_ctx) := not_lt.mpr hctx
  by_cases hd : mc.decode_ret = 0 <;>
    simp [handle_props, hpe, htce, hnot, hd] <;>
    exact hbig

/-- Witness for C10: a prompt of 513 tokens against a context of length 1000. -/
theorem handle_props_batch_capacity_overflow_witness :
    ("p".isEmpty = false) ∧ ("t".isEmpty = false) ∧
    (((LlamaCtx.mk (fun _ _ => List.replicate 513 0) 1000 1 0 (fun _ => [0])
        (fun _ => "") id).tokenize "p" true).length > batchCapacity) ∧
    (((LlamaCtx.mk (fun _ _ => List.replicate 513 0) 1000 1 0 (fun _ => [0])
        (fun _ => "") id).tokenize "p" true).length ≤
      (LlamaCtx.mk (fun _ _ => List.replicate 513 0) 1000 1 0 (fun _ => [0])
        (fun _ => "") id).n_ctx) ∧
    ((handle_props (LlamaCtx.mk (fun _ _ => List.replicate 513 0) 1000 1 0
        (fun _ => [0]) (fun _ => "") id) ⟨some "p", some "t"⟩).batch_inited = true ∧
     (handle_props (LlamaCtx.mk (fun _ _ => List.replicate 513 0) 1000 1 0
        (fun _ => [0]) (fun _ => "") id) ⟨some "p", some "t"⟩).batch_adds =
       ((LlamaCtx.mk (fun _ _ => List.replicate 513 0) 1000 1 0 (fun _ => [0])
        (fun _ => "") id).tokenize "p" true).length ∧
     (handle_props (LlamaCtx.mk (fun _ _ => List.replicate 513 0) 1000 1 0
        (fun _ => [0]) (fun _ => "") id) ⟨some "p", some "t"⟩).batch_adds >
       batchCapacity) :=
  ⟨rfl, rfl,
    by show (List.replicate 513 (0 : Nat)).length > batchCapacity
       rw [List.length_replicate]
       decide,
    by show (List.replicate 513 (0 : Nat)).length ≤ 1000
       rw [List.length_replicate]
       decide,
    handle_props_batch_capacity_overflow
      (LlamaCtx.mk (fun _ _ => List.replicate 513 0) 1000 1 0 (fun _ => [0])
        (fun _ => "") id)
      "p" "t" rfl rfl
      (by show (List.replicate 513 (0 : Nat)).length > batchCapacity
          rw [List.length_replicate]
          decide)
      (by show (List.replicate 513 (0 : Nat)).length ≤ 1000
          rw [List.length_replicate]
          decide)⟩
